import Mathlib

/-!
Verification development for the czdb-search-golang IP geolocation library.

The Go sources under `pkg/db` and `pkg/utils` are embedded shallowly:
byte buffers become `List Nat` (each element a byte value), Go `int32`
arithmetic becomes `Int` with explicit wrap-around via `toInt32`, fallible
operations return `Option`/`Except`, and Go runtime faults (out-of-range
slice indexing, integer division by zero, modulo by zero) are modelled by
a distinguished `panicked` outcome.  Each definition carries a comment
naming the Go function it translates.
-/

/-- Interpretation of a natural number as a Go `int32` value (two's
complement, little-endian byte reads wrap at 2^32). -/
def toInt32 (n : Nat) : Int :=
  if n % 4294967296 < 2147483648 then ((n % 4294967296 : Nat) : Int)
  else ((n % 4294967296 : Nat) : Int) - 4294967296

/-- Byte access with default 0; used only at positions the surrounding Go
code has already bounds-checked. -/
def byteAt (b : List Nat) (i : Nat) : Nat := b.getD i 0

/-- Little-endian unsigned 32-bit read `b[off] | b[off+1]<<8 | b[off+2]<<16 | b[off+3]<<24`. -/
def le32 (b : List Nat) (off : Nat) : Nat :=
  byteAt b off + 256 * byteAt b (off + 1) + 65536 * byteAt b (off + 2) +
    16777216 * byteAt b (off + 3)

/-- Go `utils.GetIntLong`: little-endian signed 32-bit read, returning 0 when
the 4 bytes would run past the end of the buffer (the Go code logs a warning
and returns 0 in that case). -/
def getIntLong (b : List Nat) (off : Nat) : Int :=
  if b.length < off + 4 then 0 else toInt32 (le32 b off)

/-- Go `compareBytes(bytes1, bytes2, length)` from `db_searcher.go`: byte-wise
unsigned comparison over at most `length` positions, stopping (and returning 0)
as soon as either slice is exhausted. -/
def compareBytes (b1 b2 : List Nat) (length : Nat) : Int :=
  match length, b1, b2 with
  | 0, _, _ => 0
  | _ + 1, [], _ => 0
  | _ + 1, _, [] => 0
  | n + 1, x :: xs, y :: ys =>
    if x < y then -1 else if y < x then 1 else compareBytes xs ys n

/-- Go `cleanString` from `db_searcher.go`: keep only runes in the printable
ASCII range `[32, 126]`. -/
def cleanString (s : String) : String :=
  String.mk (s.toList.filter (fun c => 32 ≤ c.toNat && c.toNat ≤ 126))

/-- Error identities, one constructor per `fmt.Errorf` site reached by the
embedded code paths. -/
inductive GoErr where
  | invalidIPFormat
  | invalidIPv4Addr
  | invalidIPv6Addr
  | indexPtrOutOfBounds
  | seekIndexFail
  | readIndexFail
  | incompleteIndexRead
  | invalidDataPtrLen
  | geoPtrOutOfBounds
  | geoExceedsBounds
  | dataPtrOutOfBounds
  | readDataFail
  | geoDecodeFail
  | invalidEndIndexPtr
  | readColumnSelFail
  | incompleteColumnSelRead
  | readGeoSizeFail
  | incompleteGeoSizeRead
  | readGeoDataFail
  | base64DecodeFail
  | invalidKeyLength
  | misalignedCiphertext
  | aesKeySizeFail
  deriving DecidableEq

/-- Outcome of a whole `TreeSearch` call: a normal result string, an error
value, or a Go runtime fault (slice range violation / division by zero). -/
inductive SearchRes where
  | ok (s : String)
  | err (e : GoErr)
  | panicked
  deriving DecidableEq

/-- Outcome of an internal buffer-producing step. -/
inductive BufRes where
  | ok (b : List Nat)
  | err (e : GoErr)
  | panicked
  deriving DecidableEq

/-- Go slice expression `b[lo:hi]`: defined only when `0 ≤ lo ≤ hi ≤ len(b)`,
a runtime fault otherwise. -/
def goSlice (b : List Nat) (lo hi : Int) : Option (List Nat) :=
  if 0 ≤ lo ∧ lo ≤ hi ∧ hi ≤ (b.length : Int) then
    some ((b.take hi.toNat).drop lo.toNat)
  else none

/-- The `DBSearcher` state from `db_searcher.go`, restricted to the fields the
lookup path reads.  `fileBytes` is the full content of the database file;
`dbBin` is the in-memory copy used by memory mode. -/
structure DBSearcher where
  ipType : Int
  ipBytesLength : Nat
  indexLength : Int
  columnSelection : Int
  geoMapData : List Nat
  dbBin : List Nat
  fileBytes : List Nat
  fileOffset : Nat
  headerLength : Int
  headerPtr : List Int
  headerSip : List (List Nat)

example : toInt32 2147483648 = -2147483648 := by decide
example : getIntLong [1, 0, 0, 0] 0 = 1 := by decide
example : compareBytes [0x7F] [0x80] 1 = -1 := by decide
example : cleanString "a\tb" = "ab" := by decide

/-! ### Model of Go `net.ParseIP` (netip.ParseAddr) and `IP.To4` -/

/-- Decimal digit test for the IPv4 field parser. -/
def isDigitCh (c : Char) : Bool := '0' ≤ c ∧ c ≤ '9'

/-- Hex digit value for the IPv6 group parser (`0-9a-fA-F`), `none` otherwise. -/
def hexVal (c : Char) : Option Nat :=
  if '0' ≤ c ∧ c ≤ '9' then some (c.toNat - '0'.toNat)
  else if 'a' ≤ c ∧ c ≤ 'f' then some (c.toNat - 'a'.toNat + 10)
  else if 'A' ≤ c ∧ c ≤ 'F' then some (c.toNat - 'A'.toNat + 10)
  else none

/-- Go `netip.parseIPv4Fields` main loop: `acc` holds the completed fields,
`val`/`digLen` the field being scanned.  Rejects leading zeros, values over
255, empty fields, more than four fields, and any character other than a
digit or a dot. -/
def parseIPv4Loop (cs : List Char) (acc : List Nat) (val digLen : Nat) :
    Option (List Nat) :=
  match cs with
  | [] => if acc.length < 3 then none else some (acc ++ [val])
  | c :: rest =>
    if isDigitCh c then
      if digLen = 1 ∧ val = 0 then none
      else
        let val' := val * 10 + (c.toNat - '0'.toNat)
        if 255 < val' then none
        else parseIPv4Loop rest acc val' (digLen + 1)
    else if c = '.' then
      if digLen = 0 ∨ rest = [] then none
      else if acc.length = 3 then none
      else parseIPv4Loop rest (acc ++ [val]) 0 0
    else none

/-- Go `netip.parseIPv4`: parse a dotted-quad IPv4 address into its 4 bytes. -/
def parseIPv4Go (cs : List Char) : Option (List Nat) :=
  parseIPv4Loop cs [] 0 0

/-- Scan up to four hex digits of one IPv6 group, mirroring the inner `for`
loop of Go `netip.parseIPv6`; `none` when a fifth hex digit follows. -/
def hexGroup (cs : List Char) (val cnt : Nat) : Option (Nat × Nat × List Char) :=
  match cs with
  | [] => some (val, cnt, [])
  | c :: rest =>
    match hexVal c with
    | none => some (val, cnt, c :: rest)
    | some d =>
      if 3 < cnt then none
      else hexGroup rest (val * 16 + d) (cnt + 1)

/-- Finishing step of Go `netip.parseIPv6`: reject trailing characters, then
expand the `::` ellipsis (recorded as a byte position) with zero bytes. -/
def p6finish (s : List Char) (acc : List Nat) (ell : Option Nat) :
    Option (List Nat) :=
  if s ≠ [] then none
  else if acc.length < 16 then
    match ell with
    | none => none
    | some e =>
      some (acc.take e ++ List.replicate (16 - acc.length) 0 ++ acc.drop e)
  else if ell.isSome then none
  else some acc

/-- Main loop of Go `netip.parseIPv6`: one iteration per colon-separated
group.  `acc` holds the bytes emitted so far (Go index `i = acc.length`),
`ell` the byte position of a `::` if one was seen.  The fuel argument only
bounds the recursion; every iteration consumes at least one character, so
callers pass `length + 1` and the fuel never runs out. -/
def p6loop (s : List Char) (acc : List Nat) (ell : Option Nat) (fuel : Nat) :
    Option (List Nat) :=
  match fuel with
  | 0 => none
  | fuel + 1 =>
    if 16 ≤ acc.length then p6finish s acc ell
    else
      match hexGroup s 0 0 with
      | none => none
      | some (val, cnt, rest) =>
        if cnt = 0 then none
        else
          match rest with
          | '.' :: _ =>
            -- embedded IPv4: must replace the final two 16-bit fields
            if ell = none ∧ acc.length ≠ 12 then none
            else if 16 < acc.length + 4 then none
            else
              match parseIPv4Go s with
              | none => none
              | some b4 => p6finish [] (acc ++ b4) ell
          | _ =>
            let acc' := acc ++ [val / 256, val % 256]
            match rest with
            | [] => p6finish [] acc' ell
            | c :: rest2 =>
              if c ≠ ':' then none
              else
                match rest2 with
                | [] => none
                | ':' :: rest3 =>
                  if ell.isSome then none
                  else if rest3 = [] then p6finish [] acc' (some acc'.length)
                  else p6loop rest3 acc' (some acc'.length) fuel
                | _ => p6loop rest2 acc' ell fuel

/-- Go `netip.parseIPv6` as used by `net.ParseIP`: a zoned address (any `%`)
is never returned by `ParseIP` — an empty zone is a parse error and a
non-empty zone is rejected by `ParseIP` itself — so `%` yields `none` here. -/
def parseIPv6Go (cs : List Char) : Option (List Nat) :=
  if cs.contains '%' then none
  else
    match cs with
    | ':' :: ':' :: rest =>
      if rest = [] then some (List.replicate 16 0)
      else p6loop rest [] (some 0) (rest.length + 1)
    | _ => p6loop cs [] none (cs.length + 1)

/-- Go `net.ParseIP`: dispatch on the first `.`, `:` or `%` in the string;
the result is always the 16-byte form (`As16`), so a parsed IPv4 address is
returned as an IPv4-mapped IPv6 address. -/
def parseIPGo (s : String) : Option (List Nat) :=
  let rec dispatch (cs : List Char) : Option Char :=
    match cs with
    | [] => none
    | c :: rest =>
      if c = '.' ∨ c = ':' ∨ c = '%' then some c else dispatch rest
  match dispatch s.toList with
  | some '.' =>
    (parseIPv4Go s.toList).map
      (fun b4 => List.replicate 10 0 ++ [0xff, 0xff] ++ b4)
  | some ':' => parseIPv6Go s.toList
  | _ => none

/-- Go `IP.To4`: a 4-byte address, or the tail of an IPv4-mapped 16-byte
address; `nil` otherwise. -/
def to4 (ip : List Nat) : Option (List Nat) :=
  if ip.length = 4 then some ip
  else if ip.length = 16 ∧ (ip.take 10).all (· = 0) ∧
      byteAt ip 10 = 0xff ∧ byteAt ip 11 = 0xff then
    some (ip.drop 12)
  else none

/-- Go `ipToUint32` from `db_searcher.go`: parse, require an IPv4 form via
`To4`, then pack big-endian into a `uint32`. -/
def ipToUint32 (s : String) : Option Nat :=
  match parseIPGo s with
  | none => none
  | some ip =>
    match to4 ip with
    | none => none
    | some b4 =>
      some (16777216 * byteAt b4 0 + 65536 * byteAt b4 1 +
        256 * byteAt b4 2 + byteAt b4 3)

/-- The `ipBytes` preparation in `TreeSearch` (`db_searcher.go` lines
439-454): parse the query, require `To4` for an IPv4 database, and `copy`
into a zeroed buffer of length `IPBytesLength`. -/
def mkIpBytes (s : DBSearcher) (ip : String) : Option (List Nat) :=
  let src := if s.ipType = 4 then (parseIPGo ip).bind to4 else parseIPGo ip
  src.map (fun a =>
    a.take s.ipBytesLength ++
      List.replicate (s.ipBytesLength - a.length) 0)

example : parseIPGo "192.168.1.1" =
    some [0, 0, 0, 0, 0, 0, 0, 0, 0, 0, 0xff, 0xff, 192, 168, 1, 1] := by decide
example : ipToUint32 "192.168.1.1" = some 3232235777 := by decide
example : ipToUint32 "8.8.8.8" = some 134744072 := by decide
example : ipToUint32 "255.255.255.255" = some 4294967295 := by decide
example : ipToUint32 "0.0.0.0" = some 0 := by decide
example : ipToUint32 "256.256.256.256" = none := by decide
example : ipToUint32 "invalid" = none := by decide
example : parseIPGo "2001:db8::1" =
    some [0x20, 0x01, 0x0d, 0xb8, 0, 0, 0, 0, 0, 0, 0, 0, 0, 0, 0, 1] := by decide
example : ipToUint32 "2001:db8::1" = none := by decide
example : parseIPGo "::ffff:1.2.3.4" =
    some [0, 0, 0, 0, 0, 0, 0, 0, 0, 0, 0xff, 0xff, 1, 2, 3, 4] := by decide
example : parseIPGo "::" = some (List.replicate 16 0) := by decide
example : parseIPGo "1.2.3" = none := by decide
example : parseIPGo "01.2.3.4" = none := by decide
example : parseIPGo "fe80::1%eth0" = none := by decide

/-! ### The range-search engine of `TreeSearch` (`db_searcher.go`) -/

/-- Go `loadDBIntoMemory`: read the file from `FileOffset` to the end into
`DBBin`; `none` models the `make([]byte, negative)` runtime fault when
`FileOffset` exceeds the file size. -/
def loadDBIntoMemory (s : DBSearcher) : Option (List Nat) :=
  if s.fileBytes.length < s.fileOffset then none
  else some (s.fileBytes.drop s.fileOffset)

/-- The in-memory database the search works on: Go `TreeSearch` lines
456-462 lazily load `DBBin` in memory mode when it is empty. -/
def loadStep (s : DBSearcher) (memoryMode : Bool) : Option (List Nat) :=
  if memoryMode ∧ s.dbBin.isEmpty then loadDBIntoMemory s else some s.dbBin

/-- Result of the header binary-search loop. -/
inductive HLoopRes where
  | matched (sptr eptr : Int)
  | noMatch (l hp1 : Nat)
  | panicked
  deriving DecidableEq

/-- The binary search over the header block (`TreeSearch` lines 470-488).
Reparameterised with `l : Nat` and `hp1 = h + 1 : Nat` (the Go loop keeps
`l ≥ 0` and `h ≥ -1`); `m = (l+h)/2` matches Go's non-negative division.
List accesses outside the actual arrays are the Go panics this models.  The
fuel only bounds the recursion: `hp1 - l` shrinks every iteration, callers
pass `hp1 - l + 1`, and `headerLoop_fuel` shows any such fuel is enough. -/
def headerLoop (sips : List (List Nat)) (ptrs : List Int) (ipBytes : List Nat)
    (w : Nat) (l hp1 : Nat) (fuel : Nat) : HLoopRes :=
  match fuel with
  | 0 => HLoopRes.panicked
  | fuel + 1 =>
    if l < hp1 then
      let m := (l + (hp1 - 1)) / 2
      match sips.get? m with
      | none => HLoopRes.panicked
      | some sip =>
        let cmp := compareBytes ipBytes sip w
        if cmp < 0 then headerLoop sips ptrs ipBytes w l m fuel
        else if 0 < cmp then headerLoop sips ptrs ipBytes w (m + 1) hp1 fuel
        else
          match (if 0 < m then ptrs.get? (m - 1) else ptrs.get? m), ptrs.get? m with
          | some sp, some ep => HLoopRes.matched sp ep
          | _, _ => HLoopRes.panicked
    else HLoopRes.noMatch l hp1

/-- Result of the header-range selection step. -/
inductive HeaderRangeRes where
  | range (sptr eptr : Int)
  | panicked
  deriving DecidableEq

/-- The `SelectHeaderRange` step of `TreeSearch` (lines 464-503): binary
search over the header entries, then the post-loop branch choosing the
candidate index block.  The final Go `h` is `hp1 - 1`; when the loop never
ran because `HeaderLength ≤ 0`, both the real `h` and `hp1 - 1` are
negative and the conditions below agree. -/
def selectHeaderRange (s : DBSearcher) (ipBytes : List Nat) : HeaderRangeRes :=
  let n := s.headerLength
  let hp1 := n.toNat
  match headerLoop s.headerSip s.headerPtr ipBytes s.ipBytesLength 0 hp1 (hp1 + 1) with
  | HLoopRes.matched sp ep => HeaderRangeRes.range sp ep
  | HLoopRes.panicked => HeaderRangeRes.panicked
  | HLoopRes.noMatch l hp1f =>
    if (l : Int) < n then
      -- sptr = HeaderPtr[l-1]; for l = 0 this indexes position -1: a panic
      if l = 0 then HeaderRangeRes.panicked
      else
        match s.headerPtr.get? (l - 1), s.headerPtr.get? l with
        | some sp, some ep => HeaderRangeRes.range sp ep
        | _, _ => HeaderRangeRes.panicked
    else if 1 ≤ hp1f ∧ (hp1f : Int) < n then
      match s.headerPtr.get? (hp1f - 1), s.headerPtr.get? hp1f with
      | some sp, some ep => HeaderRangeRes.range sp ep
      | _, _ => HeaderRangeRes.panicked
    else
      if n ≤ 0 then HeaderRangeRes.panicked
      else
        match s.headerPtr.get? (n.toNat - 1) with
        | some sp => HeaderRangeRes.range sp (sp + (s.ipBytesLength * 2 + 5 : Nat))
        | none => HeaderRangeRes.panicked

/-- Reading the index block (`TreeSearch` lines 516-537).  Memory mode:
bounds guard then the slice `DBBin[sptr : sptr+blockLen]`.  File mode:
`Seek(sptr + FileOffset)` then one `Read` of `blockLen` bytes — reading at
end-of-file is an error, a short read is the `incomplete` error, and
`make([]byte, blockLen)` with negative `blockLen` is a runtime fault. -/
def readIndexBuffer (dbBin fileBytes : List Nat) (off : Nat) (memoryMode : Bool)
    (sptr blockLen : Int) : BufRes :=
  if memoryMode then
    if (dbBin.length : Int) ≤ sptr then BufRes.err GoErr.indexPtrOutOfBounds
    else
      match goSlice dbBin sptr (sptr + blockLen) with
      | some b => BufRes.ok b
      | none => BufRes.panicked
  else
    if sptr + (off : Int) < 0 then BufRes.err GoErr.seekIndexFail
    else if blockLen < 0 then BufRes.panicked
    else
      let pos := (sptr + (off : Int)).toNat
      let n := blockLen.toNat
      if n ≠ 0 ∧ fileBytes.length ≤ pos then BufRes.err GoErr.readIndexFail
      else
        let got := (fileBytes.drop pos).take n
        if got.length < n then BufRes.err GoErr.incompleteIndexRead
        else BufRes.ok got

/-- The binary search over fixed-size index records (`TreeSearch` lines
540-586), returning the matched record's `(dataPtr, dataLen)`.  Same
`l`/`hp1` reparameterisation and fuel convention as `headerLoop`.  On a
match, `dataPtr` is the full little-endian 32-bit value at
`offset + 2*w` and `dataLen` the byte at `offset + 2*w + 4`. -/
def indexLoop (buf ipBytes : List Nat) (w blen : Nat) (l hp1 : Nat)
    (fuel : Nat) : Option (Nat × Nat) :=
  match fuel with
  | 0 => none
  | fuel + 1 =>
    if l < hp1 then
      let m := (l + (hp1 - 1)) / 2
      let offset := m * blen
      if buf.length < offset + w * 2 + 5 then none
      else
        let startIP := (buf.drop offset).take w
        let endIP := (buf.drop (offset + w)).take w
        let cmpStart := compareBytes ipBytes startIP w
        let cmpEnd := compareBytes ipBytes endIP w
        if 0 ≤ cmpStart ∧ cmpEnd ≤ 0 then
          some (le32 buf (offset + w * 2), byteAt buf (offset + w * 2 + 4))
        else if cmpStart < 0 then indexLoop buf ipBytes w blen l m fuel
        else indexLoop buf ipBytes w blen (m + 1) hp1 fuel
    else none

/-- The record search as invoked by `TreeSearch`: `l, h = 0, blockLen/blen`
(Go truncated division on `int32`; `blen = 0` panics before this is called).
For `blen < 0` the truncated quotient is at most 0, so the loop body only
ever runs at `m = 0`, where `offset = m * blen = 0` agrees with `toNat`. -/
def searchIndexBlock (s : DBSearcher) (buf ipBytes : List Nat)
    (blockLen : Int) : Option (Nat × Nat) :=
  let hp1 := (Int.tdiv blockLen s.indexLength + 1).toNat
  indexLoop buf ipBytes s.ipBytesLength s.indexLength.toNat 0 hp1 (hp1 + 1)

/-- Reading the matched record's data (`TreeSearch` lines 609-628).
Memory mode: bounds guard then `copy(data, DBBin[dataPtr : dataPtr+dataLen])`.
File mode: `Seek` + one `Read` into a zeroed buffer with NO short-read check,
so missing tail bytes stay zero. -/
def readData (dbBin fileBytes : List Nat) (off : Nat) (memoryMode : Bool)
    (dataPtr dataLen : Nat) : BufRes :=
  if memoryMode then
    if dbBin.length ≤ dataPtr then BufRes.err GoErr.dataPtrOutOfBounds
    else
      match goSlice dbBin dataPtr (dataPtr + dataLen : Nat) with
      | some src => BufRes.ok src
      | none => BufRes.panicked
  else
    let pos := dataPtr + off
    if dataLen ≠ 0 ∧ fileBytes.length ≤ pos then BufRes.err GoErr.readDataFail
    else
      let got := (fileBytes.drop pos).take dataLen
      BufRes.ok (got ++ List.replicate (dataLen - got.length) 0)

/-! ### MessagePack decoding (the subset of `vmihailenco/msgpack` used by
`GetActualGeo`: `DecodeUint64`, `DecodeString`, `DecodeArrayLen`) -/

/-- Read `n` bytes as a big-endian unsigned value (MessagePack is
big-endian); `none` on a truncated buffer. -/
def mpReadBE (b : List Nat) (n : Nat) : Option (Nat × List Nat) :=
  match n with
  | 0 => some (0, b)
  | n + 1 =>
    match b with
    | [] => none
    | c :: rest =>
      match mpReadBE rest n with
      | none => none
      | some (v, r) => some (c * 256 ^ n + v, r)

/-- MessagePack `DecodeUint64`: positive fixint and the uint8/16/32/64
formats (the formats encoders emit for the non-negative `geoPosMixSize`). -/
def mpReadUint (b : List Nat) : Option (Nat × List Nat) :=
  match b with
  | [] => none
  | c :: rest =>
    if c < 0x80 then some (c, rest)
    else if c = 0xcc then mpReadBE rest 1
    else if c = 0xcd then mpReadBE rest 2
    else if c = 0xce then mpReadBE rest 4
    else if c = 0xcf then mpReadBE rest 8
    else none

/-- Take `n` leading bytes as a string; `none` on a truncated buffer. -/
def mpTakeStr (b : List Nat) (n : Nat) : Option (String × List Nat) :=
  if b.length < n then none
  else some (String.mk ((b.take n).map Char.ofNat), b.drop n)

/-- MessagePack `DecodeString`: fixstr and the str8/16/32 formats; any other
leading format byte is a decode error. -/
def mpReadStr (b : List Nat) : Option (String × List Nat) :=
  match b with
  | [] => none
  | c :: rest =>
    if 0xa0 ≤ c ∧ c ≤ 0xbf then mpTakeStr rest (c - 0xa0)
    else if c = 0xd9 then
      match mpReadBE rest 1 with
      | some (n, r) => mpTakeStr r n
      | none => none
    else if c = 0xda then
      match mpReadBE rest 2 with
      | some (n, r) => mpTakeStr r n
      | none => none
    else if c = 0xdb then
      match mpReadBE rest 4 with
      | some (n, r) => mpTakeStr r n
      | none => none
    else none

/-- MessagePack `DecodeArrayLen`: fixarray and the array16/32 formats. -/
def mpReadArrayLen (b : List Nat) : Option (Nat × List Nat) :=
  match b with
  | [] => none
  | c :: rest =>
    if 0x90 ≤ c ∧ c ≤ 0x9f then some (c - 0x90, rest)
    else if c = 0xdc then mpReadBE rest 2
    else if c = 0xdd then mpReadBE rest 4
    else none

/-! ### `GetActualGeo` (`db_searcher.go` lines 808-886) -/

/-- The per-column loop of `GetActualGeo` (lines 862-882): decode each
column value, render the empty string as `null`, and append (tab-terminated)
those whose bit `i+1` of the column-selection mask is set.  Go computes
`columnSelection >> (i+1) & 1` with arithmetic shift on `int32`, which
`Int.shiftRight` matches; `& 1` is the remainder modulo 2. -/
def columnsLoop (remaining : Nat) (b : List Nat) (colSel : Int) (i : Nat)
    (sb : String) : Option String :=
  match remaining with
  | 0 => some sb
  | r + 1 =>
    match mpReadStr b with
    | none => none
    | some (v, rest) =>
      let v := if v = "" then "null" else v
      let selected := Int.shiftRight colSel (i + 1) % 2 = 1
      columnsLoop r rest colSel (i + 1) (if selected then sb ++ v ++ "\t" else sb)

/-- Go `GetActualGeo(geoMapData, columnSelection, geoPtr, geoLen, data, dataLen)`:
decode `geoPosMixSize` and the fallback string from `data`; when the mix is
non-zero, follow the packed 24-bit pointer / 8-bit length into `geoMapData`
and render the selected columns.  `none` is a decode failure (the Go function
returns a non-nil error; `TreeSearch` then discards the string part). -/
def getActualGeo (geoMapData : List Nat) (columnSelection : Int)
    (geoPtr geoLen : Nat) (data : List Nat) : Option String :=
  if geoMapData.length = 0 then some "No geo data available"
  else if geoMapData.length < geoPtr + geoLen then none
  else
    match mpReadUint data with
    | none => none
    | some (mix, rest) =>
      match mpReadStr rest with
      | none => none
      | some (otherData, _) =>
        if mix = 0 then some otherData
        else
          let dLen := (mix >>> 24) % 256
          let dPtr := mix % 16777216
          if geoMapData.length < dPtr + dLen then some otherData
          else
            let regionData := (geoMapData.drop dPtr).take dLen
            match mpReadArrayLen regionData with
            | none => none
            | some (colNum, rest2) =>
              match columnsLoop colNum rest2 columnSelection 0 "" with
              | none => none
              | some sb => some (sb ++ otherData)

/-! ### `TreeSearch` assembled (`db_searcher.go` lines 428-637) -/

/-- Go `TreeSearch(dbSearcher, ip, memoryMode)`: IP parsing, lazy memory
load, header-range selection, index-block read, record search, record
validation against `GeoMapData`, data read, then `GetActualGeo`. -/
def treeSearch (s : DBSearcher) (ip : String) (memoryMode : Bool) : SearchRes :=
  match ipToUint32 ip with
  | none => SearchRes.err GoErr.invalidIPFormat
  | some _ =>
    match mkIpBytes s ip with
    | none =>
      SearchRes.err (if s.ipType = 4 then GoErr.invalidIPv4Addr else GoErr.invalidIPv6Addr)
    | some ipBytes =>
      match loadStep s memoryMode with
      | none => SearchRes.panicked
      | some dbBin =>
        match selectHeaderRange s ipBytes with
        | HeaderRangeRes.panicked => SearchRes.panicked
        | HeaderRangeRes.range sptr eptr =>
          if sptr = 0 then SearchRes.ok "IP not found"
          else
            let blockLen := eptr - sptr
            match readIndexBuffer dbBin s.fileBytes s.fileOffset memoryMode sptr blockLen with
            | BufRes.err e => SearchRes.err e
            | BufRes.panicked => SearchRes.panicked
            | BufRes.ok indexBuffer =>
              if s.indexLength = 0 then SearchRes.panicked
              else
                match searchIndexBlock s indexBuffer ipBytes blockLen with
                | none => SearchRes.ok "IP not found"
                | some (dataPtr, dataLen) =>
                  if dataPtr = 0 ∨ dataLen = 0 then SearchRes.err GoErr.invalidDataPtrLen
                  else if s.geoMapData.length ≤ dataPtr then SearchRes.err GoErr.geoPtrOutOfBounds
                  else if s.geoMapData.length < dataPtr + dataLen then SearchRes.err GoErr.geoExceedsBounds
                  else
                    match readData dbBin s.fileBytes s.fileOffset memoryMode dataPtr dataLen with
                    | BufRes.err e => SearchRes.err e
                    | BufRes.panicked => SearchRes.panicked
                    | BufRes.ok data =>
                      match getActualGeo s.geoMapData s.columnSelection dataPtr dataLen data with
                      | none => SearchRes.err GoErr.geoDecodeFail
                      | some geo => SearchRes.ok geo

/-! ### Base64 (Go `encoding/base64` StdEncoding), XOR and AES-ECB decryption -/

/-- Value of one standard-alphabet base64 character. -/
def b64Char (c : Char) : Option Nat :=
  if 'A' ≤ c ∧ c ≤ 'Z' then some (c.toNat - 'A'.toNat)
  else if 'a' ≤ c ∧ c ≤ 'z' then some (c.toNat - 'a'.toNat + 26)
  else if '0' ≤ c ∧ c ≤ '9' then some (c.toNat - '0'.toNat + 52)
  else if c = '+' then some 62
  else if c = '/' then some 63
  else none

/-- Decode base64 four characters at a time (Go StdEncoding: padded input,
`=` only closing the final quantum; non-zero trailing bits are accepted, as
in Go's non-strict decoder). -/
def b64Quads (cs : List Char) : Option (List Nat) :=
  match cs with
  | [] => some []
  | c1 :: c2 :: c3 :: c4 :: rest =>
    match b64Char c1, b64Char c2 with
    | some v1, some v2 =>
      if c3 = '=' then
        if c4 = '=' ∧ rest = [] then some [v1 * 4 + v2 / 16] else none
      else
        match b64Char c3 with
        | none => none
        | some v3 =>
          if c4 = '=' then
            if rest = [] then some [v1 * 4 + v2 / 16, v2 % 16 * 16 + v3 / 4]
            else none
          else
            match b64Char c4 with
            | none => none
            | some v4 =>
              match b64Quads rest with
              | none => none
              | some tl =>
                some ((v1 * 4 + v2 / 16) :: (v2 % 16 * 16 + v3 / 4) ::
                  (v3 % 4 * 64 + v4) :: tl)
    | _, _ => none
  | _ => none

/-- Go `base64.StdEncoding.DecodeString` (newlines are skipped, everything
else is decoded in padded 4-character quantums). -/
def base64Decode (s : String) : Option (List Nat) :=
  b64Quads (s.toList.filter (fun c => c ≠ '\r' ∧ c ≠ '\n'))

/-- The XOR loop shared by `db.Decrypt` and `loadGeoMapping`
(`result[i] = encryptedBytes[i] ^ keyBytes[i % len(keyBytes)]`); the index
argument carries Go's `i`. -/
def xorLoop (keyBytes : List Nat) (i : Nat) : List Nat → List Nat
  | [] => []
  | b :: rest => (b ^^^ byteAt keyBytes (i % keyBytes.length)) :: xorLoop keyBytes (i + 1) rest

/-- Repeating-key XOR over a whole buffer; `none` models the Go runtime
fault `i % 0` (modulo by zero) hit when the key is empty and the buffer is
not. -/
def xorWithKey (encryptedBytes keyBytes : List Nat) : Option (List Nat) :=
  if keyBytes.length = 0 ∧ encryptedBytes.length ≠ 0 then none
  else some (xorLoop keyBytes 0 encryptedBytes)

/-- Go `db.Decrypt(encryptedBytes, key)` (`db_searcher.go` lines 792-805):
base64-decode the key then XOR.  `none` covers both failure behaviours of
the Go function: the `nil` return on a bad base64 key, and the modulo-by-zero
runtime fault on an empty decoded key with a non-empty buffer. -/
def dbDecrypt (encryptedBytes : List Nat) (key : String) : Option (List Nat) :=
  match base64Decode key with
  | none => none
  | some keyBytes => xorWithKey encryptedBytes keyBytes

/-- The ECB loop of Go `AESECBDecrypt`: apply the 16-byte block decryption
to consecutive blocks.  `n` is the exact block count `len/16`, mirroring the
Go `for bs < len(encryptedData)` loop on block-aligned input. -/
def ecbBlocks (bd : List Nat → List Nat) : Nat → List Nat → List Nat
  | 0, _ => []
  | n + 1, data => bd (data.take 16) ++ ecbBlocks bd n (data.drop 16)

/-- Go `AESECBDecrypt(encryptedData, key)` from the decrypted-block source
file: empty input short-circuits, misaligned input is an error, then
`aes.NewCipher` (which rejects keys other than 16/24/32 bytes) and
block-by-block decryption with no chaining and no padding removal.  The AES
block permutation itself lives in Go's standard library, so it is a
parameter `bd`. -/
def aesECBDecrypt (encryptedData keyBytes : List Nat)
    (bd : List Nat → List Nat) : Except GoErr (List Nat) :=
  if encryptedData.length = 0 then Except.ok []
  else if encryptedData.length % 16 ≠ 0 then Except.error GoErr.misalignedCiphertext
  else if ¬(keyBytes.length = 16 ∨ keyBytes.length = 24 ∨ keyBytes.length = 32) then
    Except.error GoErr.aesKeySizeFail
  else Except.ok (ecbBlocks bd (encryptedData.length / 16) encryptedData)

/-- Go `DecryptEncryptedBytes(encryptedBytes, key)`: base64-decode the key,
check its length is 16/24/32, then AES-ECB decrypt. -/
def decryptEncryptedBytes (encryptedBytes : List Nat) (key : String)
    (bd : List Nat → List Nat) : Except GoErr (List Nat) :=
  match base64Decode key with
  | none => Except.error GoErr.base64DecodeFail
  | some keyBytes =>
    if ¬(keyBytes.length = 16 ∨ keyBytes.length = 24 ∨ keyBytes.length = 32) then
      Except.error GoErr.invalidKeyLength
    else aesECBDecrypt encryptedBytes keyBytes bd

/-! ### The hyper-header's decrypted secret block
(`hyper_header_block.go` lines 70-87) -/

/-- The `DecryptedBlock` structure: `ClientId`, `ExpirationDate` and
`RandomSize` are Go `int32` fields. -/
structure DecryptedBlock where
  clientId : Int
  expirationDate : Int
  randomSize : Int
  deriving DecidableEq

/-- Unpacking of the AES-decrypted payload in `DecryptHyperHeaderBlock`:
fewer than 8 bytes is the `decrypted data too small` error; otherwise
`combinedValue` is the signed little-endian word at offset 0,
`ClientId = combinedValue >> 20` (Go's arithmetic shift on `int32`,
`ClientIdShift = 20`), `ExpirationDate = combinedValue & 0xFFFFF` (the AND
with `2^20 - 1` is the non-negative remainder modulo `2^20` in two's
complement), and `RandomSize` is read at offset 4 only when at least 12
bytes are present. -/
def parseDecryptedBlock (decryptedBytes : List Nat) : Option DecryptedBlock :=
  if 8 ≤ decryptedBytes.length then
    let combinedValue := getIntLong decryptedBytes 0
    some { clientId := Int.shiftRight combinedValue 20
         , expirationDate := combinedValue % 1048576
         , randomSize :=
             if 12 ≤ decryptedBytes.length then getIntLong decryptedBytes 4 else 0 }
  else none

/-! ### `loadGeoMapping` (`db_searcher.go` lines 175-280) -/

/-- Outcome of loading the geo mapping: the column-selection mask and the
decrypted geo buffer, an error, or a runtime fault. -/
inductive GeoLoadRes where
  | ok (colSel : Int) (geo : List Nat)
  | err (e : GoErr)
  | panicked
  deriving DecidableEq

/-- Go `loadGeoMapping(dbSearcher, offset)` as a pure function of the file
content: read the 4-byte column-selection mask at
`offset + endIndexPtr + (ipBytesLength*2 + 5)`; a zero mask leaves the geo
buffer empty; otherwise read the 4-byte size, cap it at 100 MB, read the
(possibly truncated) encrypted bytes and XOR-decrypt them with the
base64-decoded key. -/
def loadGeoMapping (fileBytes : List Nat) (off : Nat) (endIndexPtr : Int)
    (ipBytesLength : Nat) (dbKey : String) : GeoLoadRes :=
  if endIndexPtr ≤ 0 then GeoLoadRes.err GoErr.invalidEndIndexPtr
  else
    let colPtr := (off : Int) + endIndexPtr + (ipBytesLength * 2 + 5 : Nat)
    let pos := colPtr.toNat
    if fileBytes.length ≤ pos then GeoLoadRes.err GoErr.readColumnSelFail
    else
      let colBytes := (fileBytes.drop pos).take 4
      if colBytes.length < 4 then GeoLoadRes.err GoErr.incompleteColumnSelRead
      else
        let colSel := getIntLong colBytes 0
        if colSel = 0 then GeoLoadRes.ok 0 []
        else
          let sizePos := pos + 4
          if fileBytes.length ≤ sizePos then GeoLoadRes.err GoErr.readGeoSizeFail
          else
            let sizeBytes := (fileBytes.drop sizePos).take 4
            if sizeBytes.length < 4 then GeoLoadRes.err GoErr.incompleteGeoSizeRead
            else
              let geoSize := getIntLong sizeBytes 0
              if geoSize ≤ 0 then GeoLoadRes.ok colSel []
              else
                let geoSize := if 100000000 < geoSize then 100000000 else geoSize
                let dataPos := sizePos + 4
                if fileBytes.length ≤ dataPos then GeoLoadRes.err GoErr.readGeoDataFail
                else
                  let enc := (fileBytes.drop dataPos).take geoSize.toNat
                  match base64Decode dbKey with
                  | none => GeoLoadRes.err GoErr.base64DecodeFail
                  | some keyBytes =>
                    match xorWithKey enc keyBytes with
                    | none => GeoLoadRes.panicked
                    | some dec => GeoLoadRes.ok colSel dec

example : base64Decode "QUJD" = some [65, 66, 67] := by decide
example : base64Decode "" = some [] := by decide
example : base64Decode "AB==" = some [0] := by decide
example : base64Decode "!" = none := by decide
example : dbDecrypt [1, 2, 3] "QUJD" = some [64, 64, 64] := by decide
example : parseDecryptedBlock [0, 0, 16, 0, 9, 0, 0, 0, 0, 0, 0, 0] =
    some { clientId := 1, expirationDate := 0, randomSize := 9 } := by decide

/-! ### Shared arithmetic helper lemmas -/

/-- Go's arithmetic right shift by 20 on a signed value is floor division by
`2^20` (Lean's `Int` division by a positive divisor). -/
theorem int_shiftRight20_eq_div (v : Int) : Int.shiftRight v 20 = v / 1048576 := by
  cases v with
  | ofNat n =>
    show Int.ofNat (n >>> 20) = _
    rw [Nat.shiftRight_eq_div_pow]
    norm_num
  | negSucc n =>
    show Int.negSucc (n >>> 20) = _
    rw [Nat.shiftRight_eq_div_pow, Int.negSucc_eq, Int.negSucc_eq]
    norm_num
    omega

/-- The low 20 bits of an `int32` value agree with the remainder of the
underlying unsigned value. -/
theorem toInt32_emod_pow20 (n : Nat) :
    toInt32 n % 1048576 = ((n % 1048576 : Nat) : Int) := by
  unfold toInt32
  split <;> omega

/-- The arithmetic-shift-by-20 image of an `int32` value is a 12-bit signed
value. -/
theorem toInt32_div_pow20_range (n : Nat) :
    -2048 ≤ toInt32 n / 1048576 ∧ toInt32 n / 1048576 < 2048 := by
  unfold toInt32
  split <;> omega

/-! ### Claim C6: unpacking the decrypted secret block -/

/-- C6 counterexample.  The claim as stated fails on the code in two ways:
for the 8-byte payload `[0,0,0,0,1,0,0,0]`, bytes 4-8 are present and hold
the little-endian value 1, but the code leaves `RandomSize = 0` because its
guard requires at least 12 bytes; and for a 12-byte payload whose first word
has the sign bit set, `ClientId = combinedValue >> 20` is the arithmetic
(signed) shift `-2048`, not a 12-bit unsigned value. -/
theorem C6_counterexample :
    parseDecryptedBlock [0, 0, 0, 0, 1, 0, 0, 0] =
      some { clientId := 0, expirationDate := 0, randomSize := 0 } ∧
    getIntLong [0, 0, 0, 0, 1, 0, 0, 0] 4 = 1 ∧
    (0 : Int) ≠ 1 ∧
    parseDecryptedBlock [0, 0, 0, 128, 0, 0, 0, 0, 0, 0, 0, 0] =
      some { clientId := -2048, expirationDate := 0, randomSize := 0 } ∧
    ¬(0 : Int) ≤ -2048 := by
  refine ⟨by decide, by decide, by decide, ?_, by decide⟩
  decide

/-- C6 amended: decoding the secret block fails iff the decrypted payload is
shorter than 8 bytes; `clientId` is the floor division (arithmetic shift) of
the signed 32-bit word at offset 0 by `2^20` — a 12-bit signed value —
`expirationDate` is the unsigned low 20 bits of that word, and
`randomPaddingSize` is the little-endian word at offset 4 exactly when the
payload has at least 12 bytes (and 0 otherwise). -/
theorem C6_amended (bs : List Nat) :
    ((parseDecryptedBlock bs).isSome ↔ 8 ≤ bs.length) ∧
    (∀ blk, parseDecryptedBlock bs = some blk →
      blk.clientId = toInt32 (le32 bs 0) / 1048576 ∧
      -2048 ≤ blk.clientId ∧ blk.clientId < 2048 ∧
      blk.expirationDate = ((le32 bs 0 % 1048576 : Nat) : Int) ∧
      blk.randomSize = (if 12 ≤ bs.length then getIntLong bs 4 else 0)) := by
  constructor
  · unfold parseDecryptedBlock
    split
    · simpa
    · simp only [Option.isSome_none, Bool.false_eq_true, false_iff]
      omega
  · intro blk h
    unfold parseDecryptedBlock at h
    split at h
    · rename_i hlen
      rw [Option.some.injEq] at h
      subst h
      have hgil : getIntLong bs 0 = toInt32 (le32 bs 0) := by
        unfold getIntLong
        rw [if_neg (by omega)]
      refine ⟨?_, ?_, ?_, ?_, rfl⟩
      · simp only [hgil, int_shiftRight20_eq_div]
      · simp only [hgil, int_shiftRight20_eq_div]
        exact (toInt32_div_pow20_range _).1
      · simp only [hgil, int_shiftRight20_eq_div]
        exact (toInt32_div_pow20_range _).2
      · simp only [hgil, toInt32_emod_pow20]
    · exact absurd h (by simp)

/-- C6 witness: the amended theorem applied to a concrete 12-byte payload. -/
theorem C6_witness :
    parseDecryptedBlock [0, 0, 16, 0, 9, 0, 0, 0, 0, 0, 0, 0] =
      some { clientId := 1, expirationDate := 0, randomSize := 9 } ∧
    (1 : Int) = toInt32 (le32 [0, 0, 16, 0, 9, 0, 0, 0, 0, 0, 0, 0] 0) / 1048576 := by
  have h := (C6_amended [0, 0, 16, 0, 9, 0, 0, 0, 0, 0, 0, 0]).2
    { clientId := 1, expirationDate := 0, randomSize := 9 } (by decide)
  exact ⟨by decide, h.1⟩

/-! ### Claim C7: the repeating-key XOR is self-inverse -/

/-- Applying the XOR loop twice at the same starting index restores the
buffer. -/
theorem xorLoop_involutive (kb : List Nat) :
    ∀ (b : List Nat) (i : Nat), xorLoop kb i (xorLoop kb i b) = b := by
  intro b
  induction b with
  | nil => intro i; rfl
  | cons x rest ih =>
    intro i
    show (x ^^^ _ ^^^ _) :: xorLoop kb (i + 1) (xorLoop kb (i + 1) rest) = x :: rest
    rw [Nat.xor_cancel_right, ih]

/-- C7 counterexample.  The key `""` is valid base64 (it decodes to the
empty byte string), yet `Decrypt` with it faults (`i % 0`) instead of
returning the buffer, so the double application is not the identity for
every key. -/
theorem C7_counterexample :
    base64Decode "" = some [] ∧
    (dbDecrypt [7] "").bind (fun r => dbDecrypt r "") = none ∧
    (dbDecrypt [7] "").bind (fun r => dbDecrypt r "") ≠ some [7] := by
  refine ⟨by decide, by decide, by decide⟩

/-- C7 amended: for every buffer and every key that base64-decodes to a
non-empty byte string, applying `Decrypt` twice restores the buffer. -/
theorem C7_amended (b : List Nat) (key : String) (kb : List Nat)
    (hdec : base64Decode key = some kb) (hne : kb ≠ []) :
    (dbDecrypt b key).bind (fun r => dbDecrypt r key) = some b := by
  have h1 : ∀ x : List Nat, dbDecrypt x key = some (xorLoop kb 0 x) := by
    intro x
    unfold dbDecrypt
    rw [hdec]
    show xorWithKey x kb = _
    unfold xorWithKey
    rw [if_neg ?_]
    intro ⟨h0, _⟩
    exact hne (List.length_eq_zero.mp h0)
  rw [h1 b]
  show dbDecrypt (xorLoop kb 0 b) key = some b
  rw [h1, xorLoop_involutive]

/-- C7 witness: the amended theorem at a concrete buffer and key. -/
theorem C7_witness :
    (dbDecrypt [1, 2, 3] "QUJD").bind (fun r => dbDecrypt r "QUJD") =
      some [1, 2, 3] :=
  C7_amended [1, 2, 3] "QUJD" [65, 66, 67] (by decide) (by decide)

/-! ### Claim C8: AES-ECB decryption of the hyper-header block -/

/-- Block-by-block decryption preserves length when the block function maps
16-byte blocks to 16-byte blocks. -/
theorem ecbBlocks_length (bd : List Nat → List Nat)
    (hbd : ∀ blk, blk.length = 16 → (bd blk).length = 16) :
    ∀ (n : Nat) (data : List Nat), data.length = 16 * n →
      (ecbBlocks bd n data).length = 16 * n := by
  intro n
  induction n with
  | zero => intro data _; rfl
  | succ k ih =>
    intro data hlen
    show (bd (data.take 16) ++ ecbBlocks bd k (data.drop 16)).length = _
    rw [List.length_append, hbd _ (by rw [List.length_take]; omega),
      ih _ (by rw [List.length_drop]; omega)]
    ring

/-- C8: `DecryptEncryptedBytes` fails with the key-length error whenever the
key base64-decodes to other than 16/24/32 bytes; with a valid key it fails
with the misalignment error whenever the ciphertext length is not a multiple
of the 16-byte AES block size; and for valid keys and aligned input it
decrypts block-by-block (no chaining, no padding removal), returning output
of the same length as the input.  `bd` is the AES block permutation supplied
by Go's standard library. -/
theorem C8_aes_decrypt (key : String) (kb data : List Nat)
    (bd : List Nat → List Nat) :
    (base64Decode key = some kb →
      ¬(kb.length = 16 ∨ kb.length = 24 ∨ kb.length = 32) →
      decryptEncryptedBytes data key bd = Except.error GoErr.invalidKeyLength) ∧
    (base64Decode key = some kb →
      (kb.length = 16 ∨ kb.length = 24 ∨ kb.length = 32) →
      data.length % 16 ≠ 0 →
      decryptEncryptedBytes data key bd = Except.error GoErr.misalignedCiphertext) ∧
    (base64Decode key = some kb →
      (kb.length = 16 ∨ kb.length = 24 ∨ kb.length = 32) →
      data.length % 16 = 0 →
      (∀ blk, blk.length = 16 → (bd blk).length = 16) →
      decryptEncryptedBytes data key bd =
        Except.ok (ecbBlocks bd (data.length / 16) data) ∧
      (ecbBlocks bd (data.length / 16) data).length = data.length) := by
  refine ⟨?_, ?_, ?_⟩
  · intro hdec hbad
    unfold decryptEncryptedBytes
    rw [hdec]
    show (if ¬(kb.length = 16 ∨ kb.length = 24 ∨ kb.length = 32) then _ else _) = _
    rw [if_pos hbad]
  · intro hdec hgood hmod
    unfold decryptEncryptedBytes
    rw [hdec]
    show (if ¬(kb.length = 16 ∨ kb.length = 24 ∨ kb.length = 32) then _ else _) = _
    rw [if_neg (not_not_intro hgood)]
    unfold aesECBDecrypt
    rw [if_neg (by omega), if_pos hmod]
  · intro hdec hgood hmod hbd
    have hmain : decryptEncryptedBytes data key bd =
        Except.ok (ecbBlocks bd (data.length / 16) data) := by
      unfold decryptEncryptedBytes
      rw [hdec]
      show (if ¬(kb.length = 16 ∨ kb.length = 24 ∨ kb.length = 32) then _ else _) = _
      rw [if_neg (not_not_intro hgood)]
      unfold aesECBDecrypt
      by_cases hz : data.length = 0
      · rw [if_pos hz]
        have : data.length / 16 = 0 := by omega
        rw [this]
        rfl
      · rw [if_neg hz, if_neg (not_not_intro hmod), if_neg (not_not_intro hgood)]
    refine ⟨hmain, ?_⟩
    rw [ecbBlocks_length bd hbd (data.length / 16) data (by omega)]
    omega

/-- C8 witness: the three conjuncts at concrete inputs — a 3-byte key is
rejected, a valid 24-byte key with a 1-byte ciphertext is misaligned, and a
valid key with one aligned block decrypts (here with the identity in place
of the AES block function) to output of the input's length. -/
theorem C8_witness :
    decryptEncryptedBytes [1] "QUJD" (fun b => b) =
      Except.error GoErr.invalidKeyLength ∧
    decryptEncryptedBytes [1] "QUFBQUFBQUFBQUFBQUFBQUFBQUFBQUFB" (fun b => b) =
      Except.error GoErr.misalignedCiphertext ∧
    decryptEncryptedBytes (List.replicate 16 9) "QUFBQUFBQUFBQUFBQUFBQUFBQUFBQUFB" (fun b => b) =
      Except.ok (List.replicate 16 9) := by
  have h1 := (C8_aes_decrypt "QUJD" [65, 66, 67] [1] (fun b => b)).1
    (by decide) (by decide)
  have h2 := (C8_aes_decrypt "QUFBQUFBQUFBQUFBQUFBQUFBQUFBQUFB" (List.replicate 24 65)
    [1] (fun b => b)).2.1 (by decide) (by decide) (by decide)
  have h3 := (C8_aes_decrypt "QUFBQUFBQUFBQUFBQUFBQUFBQUFBQUFB" (List.replicate 24 65)
    (List.replicate 16 9) (fun b => b)).2.2 (by decide) (by decide) (by decide)
    (fun blk hb => hb)
  exact ⟨h1, h2, by rw [h3.1]; rfl⟩

/-! ### Concrete searcher states used by the counterexamples and witnesses -/

/-- An IPv4 searcher whose database has a zero column-selection mask: the
geo buffer is empty, the single header entry points at an index block whose
one record covers `1.1.1.0 - 1.1.1.255` with `dataPtr = 1`, `dataLen = 1`. -/
def searcherZeroMask : DBSearcher :=
  { ipType := 4, ipBytesLength := 4, indexLength := 13, columnSelection := 0,
    geoMapData := [], dbBin := [99, 1, 1, 1, 0, 1, 1, 1, 255, 1, 0, 0, 0, 1],
    fileBytes := [], fileOffset := 0, headerLength := 1,
    headerPtr := [1], headerSip := [[0, 0, 0, 0]] }

/-- An IPv4 searcher with a populated geo section: the matched record points
at MessagePack data whose mix word selects a two-column region (`CN`, `BJ`)
with column-selection mask `0b110`, and fallback string `X`. -/
def searcherGeo : DBSearcher :=
  { ipType := 4, ipBytesLength := 4, indexLength := 13, columnSelection := 6,
    geoMapData := [0, 0, 0x92, 0xa2, 67, 78, 0xa2, 66, 74,
      0, 0, 0, 0, 0, 0, 0, 0, 0, 0, 0, 0],
    dbBin := [99] ++ [1, 1, 1, 0, 1, 1, 1, 255, 14, 0, 0, 0, 7] ++
      [0xce, 7, 0, 0, 2, 0xa1, 88],
    fileBytes := [], fileOffset := 0, headerLength := 1,
    headerPtr := [1], headerSip := [[0, 0, 0, 0]] }

/-- An IPv6-family searcher (database type 1). -/
def searcherV6 : DBSearcher :=
  { ipType := 6, ipBytesLength := 16, indexLength := 37, columnSelection := 0,
    geoMapData := [], dbBin := [0], fileBytes := [], fileOffset := 0,
    headerLength := 0, headerPtr := [], headerSip := [] }

/-- An IPv4 searcher whose single header pointer is 0, so the header-range
step yields `sptr = 0`. -/
def searcherSptrZero : DBSearcher :=
  { ipType := 4, ipBytesLength := 4, indexLength := 13, columnSelection := 0,
    geoMapData := [], dbBin := [0], fileBytes := [], fileOffset := 0,
    headerLength := 1, headerPtr := [0], headerSip := [[0, 0, 0, 0]] }

/-- An IPv4 searcher whose in-memory buffer equals the file content from
`FileOffset` on, but whose header pointer sends the search past the end of
the buffer: the index-block read runs out of bounds. -/
def searcherOOB : DBSearcher :=
  { ipType := 4, ipBytesLength := 4, indexLength := 13, columnSelection := 0,
    geoMapData := [], dbBin := List.replicate 15 0,
    fileBytes := [7, 7, 7] ++ List.replicate 15 0, fileOffset := 3,
    headerLength := 1, headerPtr := [10], headerSip := [[0, 0, 0, 0]] }

/-- An IPv4 searcher with one header entry whose start IP `1.1.1.1` lies
strictly above the query `0.0.0.1`. -/
def searcherBelowFirst : DBSearcher :=
  { ipType := 4, ipBytesLength := 4, indexLength := 13, columnSelection := 0,
    geoMapData := [], dbBin := [0], fileBytes := [], fileOffset := 0,
    headerLength := 1, headerPtr := [100], headerSip := [[1, 1, 1, 1]] }

/-- A well-formed memory-mode searcher whose buffer is the file tail and
whose lookup of `1.1.1.5` succeeds in both modes (used by the C9 witness). -/
def searcherDual : DBSearcher :=
  { ipType := 4, ipBytesLength := 4, indexLength := 13, columnSelection := 6,
    geoMapData := [0, 0, 0x92, 0xa2, 67, 78, 0xa2, 66, 74,
      0, 0, 0, 0, 0, 0, 0, 0, 0, 0, 0, 0],
    dbBin := [99] ++ [1, 1, 1, 0, 1, 1, 1, 255, 14, 0, 0, 0, 7] ++
      [0xce, 7, 0, 0, 2, 0xa1, 88],
    fileBytes := [5, 5] ++ [99] ++ [1, 1, 1, 0, 1, 1, 1, 255, 14, 0, 0, 0, 7] ++
      [0xce, 7, 0, 0, 2, 0xa1, 88],
    fileOffset := 2, headerLength := 1,
    headerPtr := [1], headerSip := [[0, 0, 0, 0]] }

/-! ### Claim C3: IPv6 queries on an IPv6 database fail at the parse step -/

/-- C3: the code contradicts the claim.  `"2001:db8::1"` is a syntactically
valid IPv6 address (the parser accepts it), the searcher's family is IPv6
(database type 1), yet `TreeSearch` fails at its very first step because
`ipToUint32` requires `To4` to succeed — every non-IPv4-mapped IPv6 query is
rejected as an invalid IP. -/
theorem C3_parse_step_bug :
    parseIPGo "2001:db8::1" =
      some [0x20, 0x01, 0x0d, 0xb8, 0, 0, 0, 0, 0, 0, 0, 0, 0, 0, 0, 1] ∧
    searcherV6.ipType = 6 ∧
    ipToUint32 "2001:db8::1" = none ∧
    treeSearch searcherV6 "2001:db8::1" true = SearchRes.err GoErr.invalidIPFormat ∧
    treeSearch searcherV6 "2001:db8::1" false = SearchRes.err GoErr.invalidIPFormat := by
  refine ⟨by decide, by decide, by decide, by decide, by decide⟩

/-! ### Claim C10: header-range selection indexes `HeaderPtr[-1]` -/

/-- C10: the code contradicts the claim.  For a query IP strictly below the
first header entry's start IP the binary search drives `l` to 0 with no
match, and the post-loop branch `l < HeaderLength` then reads
`HeaderPtr[l-1] = HeaderPtr[-1]` — an out-of-bounds access (a Go runtime
panic), not an in-bounds lookup. -/
theorem C10_header_oob :
    compareBytes [0, 0, 0, 1] [1, 1, 1, 1] 4 = -1 ∧
    selectHeaderRange searcherBelowFirst [0, 0, 0, 1] = HeaderRangeRes.panicked ∧
    treeSearch searcherBelowFirst "0.0.0.1" true = SearchRes.panicked := by
  refine ⟨by decide, by decide, by decide⟩

/-! ### Claim C4: no covering range yields the normal result `IP not found` -/

/-- C4: for a parseable query of the database's family, whenever the
header-range step yields `sptr = 0`, or the in-block binary search finds no
record, `TreeSearch` returns the literal string `IP not found` with no
error. -/
theorem C4_not_found (s : DBSearcher) (ip : String) (mode : Bool)
    (dbBin ipb : List Nat)
    (h0 : (ipToUint32 ip).isSome = true)
    (h1 : mkIpBytes s ip = some ipb)
    (h2 : loadStep s mode = some dbBin)
    (h3 : (∃ e, selectHeaderRange s ipb = HeaderRangeRes.range 0 e) ∨
      (∃ a b buf, selectHeaderRange s ipb = HeaderRangeRes.range a b ∧ a ≠ 0 ∧
        readIndexBuffer dbBin s.fileBytes s.fileOffset mode a (b - a) = BufRes.ok buf ∧
        s.indexLength ≠ 0 ∧ searchIndexBlock s buf ipb (b - a) = none)) :
    treeSearch s ip mode = SearchRes.ok "IP not found" := by
  obtain ⟨u, hu⟩ := Option.isSome_iff_exists.mp h0
  rcases h3 with ⟨e, h3⟩ | ⟨a, b, buf, h3, ha, h4, h5, h6⟩
  · simp only [treeSearch, hu, h1, h2, h3, if_pos rfl, if_true]
  · simp only [treeSearch, hu, h1, h2, h3, if_neg ha, h4, if_neg h5, h6]

/-- C4 witness: a searcher whose single header pointer is 0; the lookup
resolves to `IP not found` with no error. -/
theorem C4_witness :
    treeSearch searcherSptrZero "1.1.1.5" true = SearchRes.ok "IP not found" :=
  C4_not_found searcherSptrZero "1.1.1.5" true searcherSptrZero.dbBin [1, 1, 1, 5]
    (by decide) (by decide) (by decide) (Or.inl ⟨13, by decide⟩)

/-! ### Claim C1: zero column-selection mask -/

/-- C1 counterexample.  On a searcher whose column-selection mask is zero
(geo buffer empty, as the claim says), a lookup whose IP matches an index
record does NOT return the record's fallback string as a normal result: the
bounds check `int(dataPtr) >= len(GeoMapData)` fires on the empty buffer and
the query fails with the geo-pointer-out-of-bounds error. -/
theorem C1_counterexample :
    searcherZeroMask.columnSelection = 0 ∧
    searcherZeroMask.geoMapData = [] ∧
    searchIndexBlock searcherZeroMask [1, 1, 1, 0, 1, 1, 1, 255, 1, 0, 0, 0, 1]
      [1, 1, 1, 5] 13 = some (1, 1) ∧
    treeSearch searcherZeroMask "1.1.1.5" true =
      SearchRes.err GoErr.geoPtrOutOfBounds := by
  refine ⟨by decide, by decide, by decide, by decide⟩

/-- C1 amended: a zero column-selection mask does leave the geo buffer empty
at load time, but a subsequent lookup whose IP matches an index record (with
the record's pointer and length non-zero) then fails with the
geo-pointer-out-of-bounds error instead of returning the fallback string. -/
theorem C1_amended :
    (∀ (fileBytes : List Nat) (off : Nat) (endIndexPtr : Int) (w : Nat)
      (key : String) (g : List Nat),
      loadGeoMapping fileBytes off endIndexPtr w key = GeoLoadRes.ok 0 g →
      g = []) ∧
    (∀ (s : DBSearcher) (ip : String) (mode : Bool) (dbBin ipb buf : List Nat)
      (sptr eptr : Int) (p dl : Nat),
      (ipToUint32 ip).isSome = true →
      mkIpBytes s ip = some ipb →
      loadStep s mode = some dbBin →
      selectHeaderRange s ipb = HeaderRangeRes.range sptr eptr →
      sptr ≠ 0 →
      readIndexBuffer dbBin s.fileBytes s.fileOffset mode sptr (eptr - sptr) =
        BufRes.ok buf →
      s.indexLength ≠ 0 →
      searchIndexBlock s buf ipb (eptr - sptr) = some (p, dl) →
      p ≠ 0 → dl ≠ 0 → s.geoMapData = [] →
      treeSearch s ip mode = SearchRes.err GoErr.geoPtrOutOfBounds) := by
  constructor
  · intro fileBytes off endIndexPtr w key g h
    simp only [loadGeoMapping] at h
    repeat' split at h
    all_goals first
      | (cases h; rfl)
      | cases h
      | (injection h with h1 h2; exact h2.symm)
      | (injection h with h1 h2; exact absurd h1 (by assumption))
  · intro s ip mode dbBin ipb buf sptr eptr p dl h0 h1 h2 h3 hsp h4 h5 h6 hp hd hgeo
    obtain ⟨u, hu⟩ := Option.isSome_iff_exists.mp h0
    have hiflen : s.geoMapData.length ≤ p := by
      rw [hgeo]
      exact Nat.zero_le _
    simp only [treeSearch, hu, h1, h2, h3, if_neg hsp, h4, if_neg h5, h6,
      if_neg (by omega : ¬(p = 0 ∨ dl = 0)), if_pos hiflen]

/-- C1 witness: the amended theorem's two parts at concrete inputs — a file
whose column-selection word is zero, and the zero-mask searcher whose
matched lookup errors out. -/
theorem C1_witness :
    ([] : List Nat) = [] ∧
    treeSearch searcherZeroMask "1.1.1.5" true =
      SearchRes.err GoErr.geoPtrOutOfBounds := by
  refine ⟨C1_amended.1 (List.replicate 14 0) 0 1 2 "k" [] (by decide), ?_⟩
  exact C1_amended.2 searcherZeroMask "1.1.1.5" true searcherZeroMask.dbBin
    [1, 1, 1, 5] [1, 1, 1, 0, 1, 1, 1, 255, 1, 0, 0, 0, 1] 1 14 1 1
    (by decide) (by decide) (by decide) (by decide) (by decide) (by decide)
    (by decide) (by decide) (by decide) (by decide) (by decide)

/-! ### Claim C2: extraction of `dataPointer` and `dataLength` on a match -/

/-- Modelled from the spec: `dataPointer` as the low 24 bits of the
little-endian 32-bit value read at the given position (the spec words this
claim and the C2 counterexample compare against the code's extraction). -/
def specDataPointerLow24 (buf : List Nat) (pos : Nat) : Nat :=
  le32 buf pos % 16777216

/-- A searcher whose family/stride fields drive `searchIndexBlock` over an
IPv4 index block (the header fields are unused by that step). -/
def searcherIdx : DBSearcher :=
  { ipType := 4, ipBytesLength := 4, indexLength := 13, columnSelection := 0,
    geoMapData := [], dbBin := [], fileBytes := [], fileOffset := 0,
    headerLength := 0, headerPtr := [], headerSip := [] }

/-- A single 13-byte index record `1.1.1.1 - 1.1.1.255` whose 4-byte pointer
field is `[1, 0, 0, 1]`: little-endian value `2^24 + 1`, low 24 bits `1`. -/
def bufC2 : List Nat := [1, 1, 1, 1, 1, 1, 1, 255, 1, 0, 0, 1, 5]

/-- C2 counterexample.  On a matched record whose fourth pointer byte is
non-zero, the code extracts the full 32-bit little-endian value
(`16777217`), not the low 24 bits (`1`) the claim describes. -/
theorem C2_counterexample :
    searchIndexBlock searcherIdx bufC2 [1, 1, 1, 5] 13 = some (16777217, 5) ∧
    specDataPointerLow24 bufC2 8 = 1 ∧
    (16777217 : Nat) ≠ 1 := by
  refine ⟨by decide, by decide, by decide⟩

/-- Any `(dataPtr, dataLen)` returned by the record binary search comes from
a record at some offset: `dataPtr` is the full little-endian 32-bit value at
`offset + 2*w` and `dataLen` the byte immediately after it, and the query IP
lies between the record's start and end IPs. -/
theorem indexLoop_found (buf ipb : List Nat) (w blen : Nat) :
    ∀ (fuel l hp1 p dl : Nat), indexLoop buf ipb w blen l hp1 fuel = some (p, dl) →
      ∃ off, off + w * 2 + 5 ≤ buf.length ∧
        p = le32 buf (off + w * 2) ∧
        dl = byteAt buf (off + w * 2 + 4) ∧
        0 ≤ compareBytes ipb ((buf.drop off).take w) w ∧
        compareBytes ipb ((buf.drop (off + w)).take w) w ≤ 0 := by
  intro fuel
  induction fuel with
  | zero =>
    intro l hp1 p dl h
    exact absurd h (by simp [indexLoop])
  | succ k ih =>
    intro l hp1 p dl h
    simp only [indexLoop] at h
    split at h
    · split at h
      · cases h
      · split at h
        · rename_i hbound hcmp
          rw [Option.some.injEq, Prod.mk.injEq] at h
          refine ⟨(l + (hp1 - 1)) / 2 * blen, by omega, h.1.symm, h.2.symm, hcmp.1, hcmp.2⟩
        · split at h
          · exact ih _ _ _ _ h
          · exact ih _ _ _ _ h
    · cases h

/-- C2 amended: on a match, the search extracts `dataPointer` as the FULL
little-endian 32-bit value at offset `2*addressWidth` inside the record (not
its low 24 bits), and `dataLength` as the single byte immediately following
the 4-byte pointer field. -/
theorem C2_amended (s : DBSearcher) (buf ipb : List Nat) (blockLen : Int)
    (p dl : Nat) (h : searchIndexBlock s buf ipb blockLen = some (p, dl)) :
    ∃ off, off + s.ipBytesLength * 2 + 5 ≤ buf.length ∧
      p = le32 buf (off + s.ipBytesLength * 2) ∧
      dl = byteAt buf (off + s.ipBytesLength * 2 + 4) ∧
      0 ≤ compareBytes ipb ((buf.drop off).take s.ipBytesLength) s.ipBytesLength ∧
      compareBytes ipb ((buf.drop (off + s.ipBytesLength)).take s.ipBytesLength)
        s.ipBytesLength ≤ 0 :=
  indexLoop_found buf ipb s.ipBytesLength s.indexLength.toNat _ 0 _ p dl h

/-- C2 witness: the amended theorem applied to the concrete record. -/
theorem C2_witness :
    ∃ off, off + searcherIdx.ipBytesLength * 2 + 5 ≤ bufC2.length ∧
      16777217 = le32 bufC2 (off + searcherIdx.ipBytesLength * 2) ∧
      5 = byteAt bufC2 (off + searcherIdx.ipBytesLength * 2 + 4) ∧
      0 ≤ compareBytes [1, 1, 1, 5] ((bufC2.drop off).take searcherIdx.ipBytesLength)
        searcherIdx.ipBytesLength ∧
      compareBytes [1, 1, 1, 5]
        ((bufC2.drop (off + searcherIdx.ipBytesLength)).take searcherIdx.ipBytesLength)
        searcherIdx.ipBytesLength ≤ 0 :=
  C2_amended searcherIdx bufC2 [1, 1, 1, 5] 13 16777217 5 (by decide)

/-! ### Claim C5: printable-ASCII stripping of results -/

/-- C5 counterexample.  A successful lookup returns the tab-joined column
string unmodified: the result `CN\tBJ\tX` contains the tab character 9,
outside the printable range `[32, 126]` — nothing strips it. -/
theorem C5_counterexample :
    treeSearch searcherGeo "1.1.1.5" true = SearchRes.ok "CN\tBJ\tX" ∧
    ("CN\tBJ\tX".toList.all fun c => 32 ≤ c.toNat && c.toNat ≤ 126) = false := by
  refine ⟨by decide, by decide⟩

/-- C5 amended: the helper `cleanString` does strip every character outside
the printable ASCII range `[32, 126]`, but `TreeSearch` never applies it to
the result it returns — a successful lookup's string is the resolver output
verbatim and can contain tab separators. -/
theorem C5_amended :
    (∀ (str : String) (c : Char), c ∈ (cleanString str).toList →
      32 ≤ c.toNat ∧ c.toNat ≤ 126) ∧
    treeSearch searcherGeo "1.1.1.5" true = SearchRes.ok "CN\tBJ\tX" ∧
    cleanString "CN\tBJ\tX" = "CNBJX" ∧
    "CNBJX" ≠ "CN\tBJ\tX" := by
  refine ⟨?_, by decide, by decide, by decide⟩
  intro str c hc
  unfold cleanString at hc
  have hmem : c ∈ str.toList.filter (fun c => 32 ≤ c.toNat && c.toNat ≤ 126) := hc
  have := List.of_mem_filter hmem
  simp only [Bool.and_eq_true, decide_eq_true_eq] at this
  exact this

/-- C5 witness: the stripping property of `cleanString` at a concrete
character of a concrete cleaned string. -/
theorem C5_witness : 32 ≤ 'a'.toNat ∧ 'a'.toNat ≤ 126 :=
  C5_amended.1 "a\tb" 'a' (by decide)

/-! ### Claim C9: memory-mode vs file-mode equivalence -/

/-- C9 counterexample.  A searcher whose in-memory buffer is exactly the
file tail, but whose header pointer makes the index-block read overrun the
buffer: memory mode hits the slice fault `DBBin[10:23]` on a 15-byte buffer
(a runtime panic), while file mode performs a short read and returns the
`incomplete index buffer read` error — the two modes do not return the same
outcome. -/
theorem C9_counterexample :
    searcherOOB.dbBin = searcherOOB.fileBytes.drop searcherOOB.fileOffset ∧
    treeSearch searcherOOB "1.2.3.4" true = SearchRes.panicked ∧
    treeSearch searcherOOB "1.2.3.4" false = SearchRes.err GoErr.incompleteIndexRead ∧
    treeSearch searcherOOB "1.2.3.4" true ≠ treeSearch searcherOOB "1.2.3.4" false := by
  refine ⟨by decide, by decide, by decide, by decide⟩

/-- Both index-block read paths return the block `DBBin[a : a+L]` when the
in-memory buffer is the file tail and the block lies inside it. -/
theorem readIndexBuffer_modes (dbBin fileBytes : List Nat) (off : Nat) (a L : Int)
    (hbin : dbBin = fileBytes.drop off) (hoff : off ≤ fileBytes.length)
    (ha : 0 ≤ a) (halen : a < (dbBin.length : Int)) (hL : 0 ≤ L)
    (hab : a + L ≤ (dbBin.length : Int)) :
    readIndexBuffer dbBin fileBytes off true a L =
      BufRes.ok ((dbBin.drop a.toNat).take L.toNat) ∧
    readIndexBuffer dbBin fileBytes off false a L =
      BufRes.ok ((dbBin.drop a.toNat).take L.toNat) := by
  have hdb_len : dbBin.length = fileBytes.length - off := by
    rw [hbin, List.length_drop]
  constructor
  · dsimp only [readIndexBuffer, goSlice]
    rw [if_neg (by omega : ¬((dbBin.length : Int) ≤ a)),
      if_pos (⟨ha, by omega, by omega⟩ :
        0 ≤ a ∧ a ≤ a + L ∧ a + L ≤ (dbBin.length : Int)),
      (by omega : (a + L).toNat = a.toNat + L.toNat), List.drop_take,
      (by omega : a.toNat + L.toNat - a.toNat = L.toNat)]
    rfl
  · dsimp only [readIndexBuffer]
    rw [if_neg (by omega : ¬(a + (off : Int) < 0)),
      if_neg (by omega : ¬(L < 0)),
      (by omega : (a + (off : Int)).toNat = off + a.toNat)]
    have hdrop : fileBytes.drop (off + a.toNat) = dbBin.drop a.toNat := by
      rw [hbin, List.drop_drop]
    have hc : ¬(L.toNat ≠ 0 ∧ fileBytes.length ≤ off + a.toNat) := by
      intro ⟨_, hcon⟩
      omega
    have hl : ¬((List.take L.toNat (List.drop a.toNat dbBin)).length < L.toNat) := by
      rw [List.length_take, List.length_drop]
      omega
    rw [if_neg hc, hdrop, if_neg hl]
    rfl

/-- Both record-data read paths return `DBBin[p : p+dl]` when the in-memory
buffer is the file tail and the record data lies inside it. -/
theorem readData_modes (dbBin fileBytes : List Nat) (off : Nat) (p dl : Nat)
    (hbin : dbBin = fileBytes.drop off) (hoff : off ≤ fileBytes.length)
    (hdl : dl ≠ 0) (hfit : p + dl ≤ dbBin.length) :
    readData dbBin fileBytes off true p dl =
      BufRes.ok ((dbBin.drop p).take dl) ∧
    readData dbBin fileBytes off false p dl =
      BufRes.ok ((dbBin.drop p).take dl) := by
  have hdb_len : dbBin.length = fileBytes.length - off := by
    rw [hbin, List.length_drop]
  constructor
  · dsimp only [readData, goSlice]
    rw [if_neg (by omega : ¬(dbBin.length ≤ p)),
      if_pos (⟨by omega, by omega, by omega⟩ :
        0 ≤ ((p : Nat) : Int) ∧ ((p : Nat) : Int) ≤ ((p + dl : Nat) : Int) ∧
          ((p + dl : Nat) : Int) ≤ (dbBin.length : Int)),
      (by omega : (((p + dl : Nat) : Int)).toNat = p + dl),
      (by omega : (((p : Nat) : Int)).toNat = p), List.drop_take,
      (by omega : p + dl - p = dl)]
    rfl
  · dsimp only [readData]
    have hdrop : fileBytes.drop (p + off) = dbBin.drop p := by
      rw [hbin, List.drop_drop]
      congr 1
      omega
    have hc : ¬(dl ≠ 0 ∧ fileBytes.length ≤ p + off) := by
      intro ⟨_, hcon⟩
      omega
    rw [if_neg hc, hdrop,
      (by rw [List.length_take, List.length_drop]; omega :
        ((dbBin.drop p).take dl).length = dl),
      (by omega : dl - dl = 0), List.replicate_zero, List.append_nil]
    rfl

/-- Decidable side condition of the amended C9: the header-selected index
block lies inside `DBBin` (or `sptr` is 0, or the header step panics). -/
def idxInBounds (s : DBSearcher) (ip : String) : Bool :=
  match mkIpBytes s ip with
  | none => true
  | some ipb =>
    match selectHeaderRange s ipb with
    | HeaderRangeRes.range a b =>
      decide (a = 0 ∨ (0 ≤ a ∧ a < (s.dbBin.length : Int) ∧ a ≤ b ∧
        b ≤ (s.dbBin.length : Int)))
    | HeaderRangeRes.panicked => true

/-- Decidable side condition of the amended C9: if a record is matched and
passes the geo-bounds guards, its data lies inside `DBBin`. -/
def dataInBounds (s : DBSearcher) (ip : String) : Bool :=
  match mkIpBytes s ip with
  | none => true
  | some ipb =>
    match selectHeaderRange s ipb with
    | HeaderRangeRes.range a b =>
      if a = 0 then true
      else
        match readIndexBuffer s.dbBin s.fileBytes s.fileOffset true a (b - a) with
        | BufRes.ok buf =>
          match searchIndexBlock s buf ipb (b - a) with
          | some (p, dl) =>
            decide (p = 0 ∨ dl = 0 ∨ s.geoMapData.length ≤ p ∨
              s.geoMapData.length < p + dl ∨ p + dl ≤ s.dbBin.length)
          | none => true
        | _ => true
    | HeaderRangeRes.panicked => true

/-- C9 amended: the two modes run one algorithm over two data-access
backends, and they return the same outcome for every searcher whose
in-memory buffer is the file content from `FileOffset` on AND whose internal
pointers keep the index-block and record-data reads inside that buffer (the
two decidable side conditions).  The counterexample shows the claim is false
without the in-bounds conditions: out-of-bounds pointers panic in one mode
and error in the other. -/
theorem C9_amended (s : DBSearcher) (ip : String)
    (hbin : s.dbBin = s.fileBytes.drop s.fileOffset)
    (hoff : s.fileOffset ≤ s.fileBytes.length)
    (hidx : idxInBounds s ip = true)
    (hdata : dataInBounds s ip = true) :
    treeSearch s ip true = treeSearch s ip false := by
  have hload : loadStep s true = some s.dbBin := by
    unfold loadStep
    split
    · unfold loadDBIntoMemory
      rw [if_neg (by omega), ← hbin]
    · rfl
  have hload' : loadStep s false = some s.dbBin := by
    simp [loadStep]
  cases h0 : ipToUint32 ip with
  | none => simp only [treeSearch, h0]
  | some u =>
  cases h1 : mkIpBytes s ip with
  | none => simp only [treeSearch, h0, h1]
  | some ipb =>
  cases h2 : selectHeaderRange s ipb with
  | panicked => simp only [treeSearch, h0, h1, hload, hload', h2]
  | range a b =>
  by_cases ha0 : a = 0
  · simp [treeSearch, h0, h1, hload, hload', h2, ha0]
  · have hb4 : 0 ≤ a ∧ a < (s.dbBin.length : Int) ∧ a ≤ b ∧
        b ≤ (s.dbBin.length : Int) := by
      have h := hidx
      simp only [idxInBounds, h1, h2, decide_eq_true_eq] at h
      rcases h with h | h
      · exact absurd h ha0
      · exact h
    obtain ⟨ha, halen, hab, hble⟩ := hb4
    have hrw := readIndexBuffer_modes s.dbBin s.fileBytes s.fileOffset a (b - a)
      hbin hoff ha halen (by omega) (by omega)
    by_cases h5 : s.indexLength = 0
    · simp only [treeSearch, h0, h1, hload, hload', h2, if_neg ha0, hrw.1, hrw.2,
        if_pos h5]
    · cases h6 : searchIndexBlock s ((s.dbBin.drop a.toNat).take (b - a).toNat)
          ipb (b - a) with
      | none =>
        simp only [treeSearch, h0, h1, hload, hload', h2, if_neg ha0, hrw.1, hrw.2,
          if_neg h5, h6]
      | some pd =>
        obtain ⟨p, dl⟩ := pd
        by_cases hpd : p = 0 ∨ dl = 0
        · simp only [treeSearch, h0, h1, hload, hload', h2, if_neg ha0, hrw.1, hrw.2,
            if_neg h5, h6, if_pos hpd]
        · by_cases hg1 : s.geoMapData.length ≤ p
          · simp only [treeSearch, h0, h1, hload, hload', h2, if_neg ha0, hrw.1,
              hrw.2, if_neg h5, h6, if_neg hpd, if_pos hg1]
          · by_cases hg2 : s.geoMapData.length < p + dl
            · simp only [treeSearch, h0, h1, hload, hload', h2, if_neg ha0, hrw.1,
                hrw.2, if_neg h5, h6, if_neg hpd, if_neg hg1, if_pos hg2]
            · have hfit : p + dl ≤ s.dbBin.length := by
                have h := hdata
                simp only [dataInBounds, h1, h2, if_neg ha0, hrw.1, h6,
                  decide_eq_true_eq] at h
                rcases h with h | h | h | h | h
                · exact absurd (Or.inl h) hpd
                · exact absurd (Or.inr h) hpd
                · omega
                · omega
                · exact h
              have hdl0 : dl ≠ 0 := fun hh => hpd (Or.inr hh)
              have hrd := readData_modes s.dbBin s.fileBytes s.fileOffset p dl
                hbin hoff hdl0 hfit
              simp only [treeSearch, h0, h1, hload, hload', h2, if_neg ha0, hrw.1,
                hrw.2, if_neg h5, h6, if_neg hpd, if_neg hg1, if_neg hg2,
                hrd.1, hrd.2]

/-- C9 witness: a concrete in-bounds searcher whose buffer is the file tail;
the amended theorem makes both modes agree on its lookup. -/
theorem C9_witness :
    treeSearch searcherDual "1.1.1.5" true = treeSearch searcherDual "1.1.1.5" false :=
  C9_amended searcherDual "1.1.1.5" (by decide) (by decide) (by decide) (by decide)
